import Mathlib

/-!
Shallow embedding of the todoist-export data pipeline (`src/app.js`):
the completed-task paginator `fetchCompleted`, the denormalizers
`convertProjectNames` / `convertUserNames`, the CSV sanitizer
`escapeCommas`, the error renderer `renderErrorPage`, and the
orchestrator `exportData`.

JavaScript dynamic values that flow through item fields are modelled by
`JsVal` (undefined, null, boolean, number, string, string array), and
JavaScript object-property lookup (`obj[key]`, which stringifies the key)
by `objGet` over string-keyed association lists.
-/

namespace TodoistExport

/-- Dynamic JavaScript values that appear in item fields. -/
inductive JsVal where
  | undefined
  | null
  | bool (b : Bool)
  | num (n : Nat)
  | str (s : String)
  | arr (xs : List String)
deriving DecidableEq, Repr

/-- JavaScript property-key stringification: `obj[k]` coerces `k` to a string
(`undefined` → "undefined", `null` → "null", arrays join with ","). -/
def toKey : JsVal → String
  | .undefined => "undefined"
  | .null => "null"
  | .bool b => toString b
  | .num n => toString n
  | .str s => s
  | .arr xs => String.intercalate "," xs

/-- JavaScript `x.toString()`: throws (`none`) on `undefined` and `null`. -/
def jsToString : JsVal → Option String
  | .undefined => none
  | .null => none
  | .bool b => some (toString b)
  | .num n => some (toString n)
  | .str s => some s
  | .arr xs => some (String.intercalate "," xs)

/-- Lookup in a JavaScript object built by `reduce` with spread: later
entries override earlier ones, so the last binding of a key wins. -/
def objGet (entries : List (String × String)) (key : String) : Option String :=
  List.lookup key entries.reverse

/-- Result of a missing-key lookup assigned to a field: `undefined`. -/
def jsValOfLookup : Option String → JsVal
  | some s => .str s
  | none => .undefined

/-- Result of `lookup || null`: `null` when the lookup misses or the found
string is falsy (empty). -/
def jsOrNull : Option String → JsVal
  | some s => if s = "" then .null else .str s
  | none => .null

structure Project where
  id : Nat
  name : String
deriving DecidableEq, Repr

structure Collaborator where
  id : Nat
  full_name : String
deriving DecidableEq, Repr

structure User where
  is_premium : Bool
deriving DecidableEq, Repr

/-- A task record. Fields referencing other entities hold dynamic values:
numeric ids before denormalization, name strings or absence markers after. -/
structure Item where
  id : Nat
  content : JsVal
  labels : JsVal
  project_id : JsVal
  assigned_by_uid : JsVal
  added_by_uid : JsVal
  user_id : JsVal
deriving DecidableEq, Repr

/-- The `{ results }` object returned by `fetchCompleted`. -/
structure CompletedData where
  results : List Item
deriving DecidableEq, Repr

/-- The sync payload: items, projects, collaborators, user, and the
`completed` field attached by `exportData` for archived exports. -/
structure SyncData where
  items : List Item
  projects : List Project
  collaborators : List Collaborator
  user : User
  completed : Option CompletedData
deriving DecidableEq, Repr

/-! ### Denormalizers (`convertProjectNames`, `convertUserNames`) -/

/-- The id→name map `syncData.projects.reduce((acc, project) =>
({...acc, [project.id]: project.name}), {})`; JS object keys are strings. -/
def projectNamesMap (syncData : SyncData) : List (String × String) :=
  syncData.projects.map fun project => (toString project.id, project.name)

/-- One item of `convertProjectNames`:
`{...item, project_id: projectNames[item.project_id]}`. -/
def resolveProjectItem (projectNames : List (String × String)) (item : Item) : Item :=
  { item with project_id := jsValOfLookup (objGet projectNames (toKey item.project_id)) }

/-- Convert project IDs into their corresponding names (`app.js` 166-176). -/
def convertProjectNames (syncData : SyncData) : List Item :=
  syncData.items.map (resolveProjectItem (projectNamesMap syncData))

/-- The id→name map built from `syncData.collaborators`. -/
def userNamesMap (syncData : SyncData) : List (String × String) :=
  syncData.collaborators.map fun collaborator =>
    (toString collaborator.id, collaborator.full_name)

/-- One item of `convertUserNames`: each user-role field becomes
`userNames[field] || null`. -/
def resolveUserItem (userNames : List (String × String)) (item : Item) : Item :=
  { item with
    assigned_by_uid := jsOrNull (objGet userNames (toKey item.assigned_by_uid)),
    added_by_uid := jsOrNull (objGet userNames (toKey item.added_by_uid)),
    user_id := jsOrNull (objGet userNames (toKey item.user_id)) }

/-- Convert user IDs into their corresponding names (`app.js` 179-194). -/
def convertUserNames (syncData : SyncData) : List Item :=
  syncData.items.map (resolveUserItem (userNamesMap syncData))

/-! ### CSV sanitizer (`escapeCommas`) -/

/-- The labels field of one sanitized item:
`item.labels?.length > 0 ? `"${item.labels.join(",")}"` : null`.
`none` models a thrown TypeError (`.join` on a non-array with a length). -/
def escapeLabels : JsVal → Option JsVal
  | .arr xs =>
    some (if 0 < xs.length then .str ("\"" ++ String.intercalate "," xs ++ "\"") else .null)
  | .str s => if 0 < s.length then none else some .null
  | _ => some .null

/-- One item of `escapeCommas`: quote the joined labels (or null them) and
quote `item.content.toString()`; `none` models a thrown TypeError. -/
def escapeItem (item : Item) : Option Item :=
  match escapeLabels item.labels, jsToString item.content with
  | some ls, some c =>
    some { item with labels := ls, content := .str ("\"" ++ c ++ "\"") }
  | _, _ => none

/-- Mapping `escapeItem` over the items; the first throw aborts the map. -/
def escapeItems : List Item → Option (List Item)
  | [] => some []
  | item :: rest =>
    match escapeItem item, escapeItems rest with
    | some out, some outs => some (out :: outs)
    | _, _ => none

/-- Sanitizer entry point (`app.js` 158-163): `syncData.items.map(...)`. -/
def escapeCommas (syncData : SyncData) : Option (List Item) :=
  escapeItems syncData.items

/-! ### Completed-task paginator (`fetchCompleted`) -/

/-- One page of the paginated completed-tasks endpoint. `results` is
optional (`page.results || []` in the code); `next_cursor` is the opaque
continuation cursor, absent or falsy on the final page. -/
structure Page where
  results : Option (List Item)
  next_cursor : Option String
deriving DecidableEq, Repr

/-- One upstream fetch outcome: a page, or a failure (non-2xx / network). -/
abbrev PageResult := Except Unit Page

/-- Truthiness of `page.next_cursor`: absent and the empty string are falsy. -/
def cursorTruthy : Option String → Bool
  | none => false
  | some s => !(s == "")

/-- Paginator (`app.js` 196-225) over the sequence of upstream responses.
A failed fetch is caught and yields `{results: []}` immediately (no cursor
is consulted); a successful page contributes `page.results || []` and
recursion continues exactly when its cursor is truthy. An exhausted source
corresponds to a fetch that cannot produce a page, i.e. a failure. -/
def fetchCompleted : List PageResult → List Item
  | [] => []
  | .error _ :: _ => []
  | .ok page :: rest =>
    if cursorTruthy page.next_cursor then
      page.results.getD [] ++ fetchCompleted rest
    else
      page.results.getD []

/-! ### Error renderer and orchestrator (`renderErrorPage`, `exportData`) -/

/-- An error object carried to `renderErrorPage`; only its optional
`status` is observable in the modelled response. -/
structure ErrInfo where
  status : Option Nat
deriving DecidableEq, Repr

/-- Outcome of one export request. -/
inductive ExportOutcome where
  | errorPage (message : String) (status : Nat)
  | jsonFile (data : SyncData)
  | csvFile (items : List Item)
  | thrown
  | noResponse
deriving DecidableEq, Repr

/-- Error rendering (`app.js` 116-123): status is
`(error && error.status) || 500` (a falsy status also defaults to 500). -/
def renderErrorPage (message : String) (error : Option ErrInfo) : ExportOutcome :=
  .errorPage message
    (match error with
     | some e =>
       match e.status with
       | some s => if s = 0 then 500 else s
       | none => 500
     | none => 500)

/-- Whether a string begins with the given pattern (on character lists). -/
def beginsWith : List Char → List Char → Bool
  | [], _ => true
  | _ :: _, [] => false
  | p :: ps, c :: cs => p == c && beginsWith ps cs

/-- JavaScript `s.includes(pat)` on character lists. -/
def hasSub (pat : List Char) : List Char → Bool
  | [] => beginsWith pat []
  | c :: cs => beginsWith pat (c :: cs) || hasSub pat cs

/-- Remove the first occurrence of the pattern, if any (character lists). -/
def dropFirstSub (pat : List Char) : List Char → List Char
  | [] => []
  | c :: cs =>
    if beginsWith pat (c :: cs) then List.drop pat.length (c :: cs)
    else c :: dropFirstSub pat cs

/-- JavaScript `format.includes(suffix)`. -/
def jsIncludes (s pat : String) : Bool :=
  hasSub pat.data s.data

/-- JavaScript `format.replace(suffix, "")`: removes the first occurrence. -/
def jsReplaceFirst (s pat : String) : String :=
  String.mk (dropFirstSub pat.data s.data)

/-- The "include archived" format suffix `"_all"`. -/
def FORMAT_SUFFIX_INCLUDE_ARCHIVED : String := "_all"

/-- Format dispatch at the end of `exportData`: `json` passes the payload
through; `csv` runs the two denormalizers then the sanitizer over the item
list (a sanitizer throw propagates); any other format sends no response.
CSV serialization itself is an external collaborator, modelled as
succeeding. -/
def emitFormatted (format : String) (syncData : SyncData) : ExportOutcome :=
  if format = "json" then .jsonFile syncData
  else if format = "csv" then
    let syncData1 := { syncData with items := convertProjectNames syncData }
    let syncData2 := { syncData1 with items := convertUserNames syncData1 }
    match escapeCommas syncData2 with
    | some items => .csvFile items
    | none => .thrown
  else .noResponse

/-- One export run: the response outcome, whether the completed-task
endpoint was called, and the format value in force when emitting. -/
structure ExportRun where
  outcome : ExportOutcome
  completedFetched : Bool
  finalFormat : String
deriving DecidableEq, Repr

/-- Orchestrator (`app.js` 227-273). Inputs: the (possibly undefined) sync
payload, the requested format string, and the upstream completed-task
source consumed by `fetchCompleted`. -/
def exportData (syncData? : Option SyncData) (format : String)
    (source : List PageResult) : ExportRun :=
  match syncData? with
  | none =>
    ⟨renderErrorPage "Could not fetch data from Todoist." none, false, format⟩
  | some syncData =>
    if jsIncludes format FORMAT_SUFFIX_INCLUDE_ARCHIVED then
      if !syncData.user.is_premium then
        ⟨renderErrorPage "Must be Todoist Premium to export archived items." none,
         false, format⟩
      else
        let format1 := jsReplaceFirst format FORMAT_SUFFIX_INCLUDE_ARCHIVED
        let completedResults := fetchCompleted source
        let syncData1 := { syncData with
          completed := some ⟨completedResults⟩,
          items := syncData.items ++ completedResults }
        ⟨emitFormatted format1 syncData1, true, format1⟩
    else
      ⟨emitFormatted format syncData, false, format⟩

/-- Replace the snapshot's item list, as the assignments
`syncData.items = ...` in `exportData` do between transforms. -/
def setItems (s : SyncData) (items : List Item) : SyncData :=
  { s with items := items }

/-- Attach a fetched completed batch, as `syncData.completed =
completedData` does in `exportData`. -/
def setCompleted (s : SyncData) (results : List Item) : SyncData :=
  { s with completed := some ⟨results⟩ }

/-! ### Concrete sample data used by witnesses and counterexamples -/

/-- The spec scenario item: `{id:10, project_id:1, content:"buy milk",
labels:["urgent","home"]}`, with user-role ids pointing at collaborator 7. -/
def sampleItem : Item :=
  { id := 10, content := .str "buy milk", labels := .arr ["urgent", "home"],
    project_id := .num 1, assigned_by_uid := .num 7, added_by_uid := .num 7,
    user_id := .num 7 }

/-- The spec scenario snapshot: one project `{id:1, name:"Work"}`, one
collaborator, a premium user. -/
def sampleSnap : SyncData :=
  { items := [sampleItem], projects := [⟨1, "Work"⟩],
    collaborators := [⟨7, "Ann"⟩], user := ⟨true⟩, completed := none }

/-- The sample snapshot owned by a non-premium user. -/
def freeSnap : SyncData :=
  { sampleSnap with user := ⟨false⟩ }

/-- An item whose references are dangling: no project 99, no collaborator 99. -/
def danglingItem : Item :=
  { sampleItem with
    project_id := .num 99, assigned_by_uid := .num 99,
    added_by_uid := .num 99, user_id := .num 99 }

/-- The sample snapshot with the dangling item as its only item. -/
def danglingSnap : SyncData :=
  { sampleSnap with items := [danglingItem] }

/-- An item whose content is null, as delivered by the upstream API. -/
def nullContentItem : Item :=
  { sampleItem with content := .null }

/-- The sample snapshot with the null-content item as its only item. -/
def nullContentSnap : SyncData :=
  { sampleSnap with items := [nullContentItem] }

/-- The scenario item after sanitization: quoted labels, quoted content. -/
def sampleEscaped : Item :=
  { sampleItem with
    labels := .str "\"urgent,home\"", content := .str "\"buy milk\"" }

/-- A completed-task record on the first synthetic page. -/
def recA : Item :=
  { sampleItem with id := 101, content := .str "done A" }

/-- A completed-task record on the second synthetic page. -/
def recB : Item :=
  { sampleItem with id := 102, content := .str "done B" }

/-- First synthetic page: one record and a continuation cursor. -/
def page1 : Page :=
  { results := some [recA], next_cursor := some "cursor2" }

/-- Second synthetic page: one record and no cursor (final page). -/
def page2 : Page :=
  { results := some [recB], next_cursor := none }

/-! ### Helper lemmas -/

theorem lookup_eq_none_of_no_key {l : List (String × String)} {k : String}
    (h : ∀ e ∈ l, e.1 ≠ k) : List.lookup k l = none := by
  induction l with
  | nil => rfl
  | cons e es ih =>
    obtain ⟨k1, v1⟩ := e
    have hk : (k == k1) = false := by
      have := h (k1, v1) (List.mem_cons_self _ _)
      simp only [ne_eq] at this
      exact beq_eq_false_iff_ne.mpr fun hkk => this hkk.symm
    simp only [List.lookup, hk]
    exact ih fun e he => h e (List.mem_cons_of_mem _ he)

theorem objGet_eq_none {entries : List (String × String)} {k : String}
    (h : ∀ e ∈ entries, e.1 ≠ k) : objGet entries k = none :=
  lookup_eq_none_of_no_key fun e he => h e (List.mem_reverse.mp he)

theorem lookup_mem {l : List (String × String)} {k : String} {v : String}
    (h : List.lookup k l = some v) : ∃ e ∈ l, e.2 = v := by
  induction l with
  | nil => simp [List.lookup] at h
  | cons e es ih =>
    obtain ⟨k1, v1⟩ := e
    by_cases hk : (k == k1) = true
    · simp only [List.lookup, hk] at h
      exact ⟨(k1, v1), List.mem_cons_self _ _, Option.some.inj h⟩
    · have hk2 : (k == k1) = false := by simpa using hk
      simp only [List.lookup, hk2] at h
      obtain ⟨e, he, hv⟩ := ih h
      exact ⟨e, List.mem_cons_of_mem _ he, hv⟩

theorem objGet_mem {entries : List (String × String)} {k : String} {v : String}
    (h : objGet entries k = some v) : ∃ e ∈ entries, e.2 = v := by
  obtain ⟨e, he, hv⟩ := lookup_mem h
  exact ⟨e, List.mem_reverse.mp he, hv⟩

theorem digitChar_ne_u : ∀ m : Nat, m < 10 → Nat.digitChar m ≠ 'u' := by decide

theorem u_not_mem_toDigitsCore :
    ∀ (f n : Nat) (acc : List Char), 'u' ∉ acc → 'u' ∉ Nat.toDigitsCore 10 f n acc := by
  intro f
  induction f with
  | zero => intro n acc h; simpa [Nat.toDigitsCore] using h
  | succ f ih =>
    intro n acc h
    simp only [Nat.toDigitsCore]
    split
    · intro hmem
      rcases List.mem_cons.mp hmem with h1 | h2
      · exact digitChar_ne_u (n % 10) (Nat.mod_lt n (by decide)) h1.symm
      · exact h h2
    · apply ih
      intro hmem
      rcases List.mem_cons.mp hmem with h1 | h2
      · exact digitChar_ne_u (n % 10) (Nat.mod_lt n (by decide)) h1.symm
      · exact h h2

theorem toString_nat_ne_undefined (n : Nat) : toString n ≠ "undefined" := by
  intro h
  have h2 : (Nat.toDigits 10 n).asString = "undefined" := h
  have h3 : Nat.toDigits 10 n = "undefined".data := by
    simpa [List.asString] using congrArg String.data h2
  have h4 : 'u' ∈ Nat.toDigits 10 n := by rw [h3]; decide
  exact u_not_mem_toDigitsCore (n + 1) n [] (by simp) h4

theorem objGet_projectNamesMap_undefined (s : SyncData) :
    objGet (projectNamesMap s) "undefined" = none := by
  apply objGet_eq_none
  intro e he
  obtain ⟨p, _, rfl⟩ := List.mem_map.mp he
  exact toString_nat_ne_undefined p.id

theorem escapeItems_none_of_mem {l : List Item} {x : Item} (hx : x ∈ l)
    (hnone : escapeItem x = none) : escapeItems l = none := by
  induction l with
  | nil => cases hx
  | cons a l ih =>
    rcases List.mem_cons.mp hx with rfl | hmem
    · simp [escapeItems, hnone]
    · cases h1 : escapeItem a <;> simp [escapeItems, h1, ih hmem]

theorem resolveProjectItem_twice_undef (s : SyncData)
    (hdisj : ∀ p ∈ s.projects, ∀ q ∈ s.projects, p.name ≠ toString q.id)
    (item : Item) :
    (resolveProjectItem (projectNamesMap s)
        (resolveProjectItem (projectNamesMap s) item)).project_id = JsVal.undefined := by
  show jsValOfLookup (objGet (projectNamesMap s)
      (toKey (jsValOfLookup
        (objGet (projectNamesMap s) (toKey item.project_id))))) = JsVal.undefined
  cases hlook : objGet (projectNamesMap s) (toKey item.project_id) with
  | none =>
    show jsValOfLookup (objGet (projectNamesMap s) "undefined") = JsVal.undefined
    rw [objGet_projectNamesMap_undefined s]
    rfl
  | some name =>
    obtain ⟨e, he, hv⟩ := objGet_mem hlook
    obtain ⟨q, hq, rfl⟩ := List.mem_map.mp he
    have hnone : objGet (projectNamesMap s) name = none := by
      apply objGet_eq_none
      intro e2 he2
      obtain ⟨q2, hq2, rfl⟩ := List.mem_map.mp he2
      intro hco
      exact hdisj q hq q2 hq2 (hv.trans hco.symm)
    show jsValOfLookup (objGet (projectNamesMap s) name) = JsVal.undefined
    rw [hnone]
    rfl

/-! ### Claim theorems -/

/-- C1: for a synthetic completed-task source of N pages, each carrying a
truthy continuation cursor except the last, `fetchCompleted` returns
exactly the concatenation of all pages' results lists in page order. -/
theorem fetchCompleted_concat_pages (init : List Page) (last : Page)
    (hinit : ∀ p ∈ init, cursorTruthy p.next_cursor = true)
    (hlast : cursorTruthy last.next_cursor = false) :
    fetchCompleted ((init ++ [last]).map Except.ok) =
      ((init ++ [last]).map fun p => p.results.getD []).flatten := by
  induction init with
  | nil => simp [fetchCompleted, hlast]
  | cons p ps ih =>
    have hp := hinit p (List.mem_cons_self p ps)
    simp only [List.cons_append, List.map_cons, fetchCompleted, hp, if_true,
      List.flatten_cons]
    exact congrArg (fun l => p.results.getD [] ++ l)
      (ih fun q hq => hinit q (List.mem_cons_of_mem p hq))

/-- C1 witness: two concrete pages evaluate to the two records in order. -/
theorem fetchCompleted_concat_pages_witness :
    fetchCompleted [Except.ok page1, Except.ok page2] = [recA, recB] :=
  (fetchCompleted_concat_pages [page1] page2 (by decide) (by decide)).trans
    (by decide)

/-- C2: when the fetch of page k+1 fails, `fetchCompleted` raises nothing
(it is total) and returns exactly the concatenation of the first k pages'
results: the failed fetch is caught and yields an empty batch with no
cursor, stopping pagination. -/
theorem fetchCompleted_stops_at_failed_page (okPages : List Page)
    (rest : List PageResult)
    (hall : ∀ p ∈ okPages, cursorTruthy p.next_cursor = true) :
    fetchCompleted (okPages.map Except.ok ++ Except.error () :: rest) =
      (okPages.map fun p => p.results.getD []).flatten := by
  induction okPages with
  | nil => simp [fetchCompleted]
  | cons p ps ih =>
    have hp := hall p (List.mem_cons_self p ps)
    simp only [List.map_cons, List.cons_append, fetchCompleted, hp, if_true,
      List.flatten_cons]
    exact congrArg (fun l => p.results.getD [] ++ l)
      (ih fun q hq => hall q (List.mem_cons_of_mem p hq))

/-- C2 witness: page 2 fails, so exactly page 1's records come back. -/
theorem fetchCompleted_stops_at_failed_page_witness :
    fetchCompleted [Except.ok page1, Except.error ()] = [recA] :=
  (fetchCompleted_stops_at_failed_page [page1] [] (by decide)).trans (by decide)

/-- C3 counterexample: on the spec's own scenario snapshot, applying
`convertProjectNames` twice does not equal applying it once — the second
pass looks the resolved name "Work" up among id keys, misses, and
overwrites the field with the undefined marker instead of leaving it. -/
theorem convertProjectNames_twice_ne_once :
    convertProjectNames (setItems sampleSnap (convertProjectNames sampleSnap)) ≠
      convertProjectNames sampleSnap := by decide

/-- C3 amended: the second application of `convertProjectNames` does not
leave resolved fields unchanged; it sets every item's `project_id` to the
undefined marker (provided no project name collides with a project id key
string), and the transform is therefore stable only from the second
application onward: a third application equals the second. -/
theorem convertProjectNames_second_pass (s : SyncData)
    (hdisj : ∀ p ∈ s.projects, ∀ q ∈ s.projects, p.name ≠ toString q.id) :
    (∀ item ∈ convertProjectNames (setItems s (convertProjectNames s)),
        item.project_id = JsVal.undefined) ∧
    convertProjectNames (setItems s
        (convertProjectNames (setItems s (convertProjectNames s)))) =
      convertProjectNames (setItems s (convertProjectNames s)) := by
  have hconv : ∀ X : List Item, convertProjectNames (setItems s X) =
      X.map (resolveProjectItem (projectNamesMap s)) := fun _ => rfl
  have hfirst : ∀ item ∈
      convertProjectNames (setItems s (convertProjectNames s)),
      item.project_id = JsVal.undefined := by
    intro item hitem
    rw [hconv] at hitem
    obtain ⟨it1, hit1, rfl⟩ := List.mem_map.mp hitem
    rw [show convertProjectNames s =
        s.items.map (resolveProjectItem (projectNamesMap s)) from rfl] at hit1
    obtain ⟨it0, _, rfl⟩ := List.mem_map.mp hit1
    exact resolveProjectItem_twice_undef s hdisj it0
  refine ⟨hfirst, ?_⟩
  rw [hconv]
  conv_rhs => rw [← List.map_id
    (convertProjectNames (setItems s (convertProjectNames s)))]
  apply List.map_congr_left
  intro item hitem
  have h := hfirst item hitem
  show resolveProjectItem (projectNamesMap s) item = item
  have hnone := objGet_projectNamesMap_undefined s
  cases item with
  | mk id content labels pid asg add uid =>
    simp only [Item.project_id] at h
    subst h
    show Item.mk id content labels
        (jsValOfLookup (objGet (projectNamesMap s) (toKey JsVal.undefined)))
        asg add uid =
      Item.mk id content labels JsVal.undefined asg add uid
    rw [show toKey JsVal.undefined = "undefined" from rfl, hnone]
    rfl

/-- C3 witness: on the scenario snapshot (names disjoint from id keys) a
third application of `convertProjectNames` equals the second. -/
theorem convertProjectNames_second_pass_witness :
    convertProjectNames (setItems sampleSnap
        (convertProjectNames
          (setItems sampleSnap (convertProjectNames sampleSnap)))) =
      convertProjectNames
        (setItems sampleSnap (convertProjectNames sampleSnap)) :=
  (convertProjectNames_second_pass sampleSnap (by decide)).2

/-- C4: the two denormalizers commute: each writes only its own item
fields and reads only untouched sibling collections, so running
`convertProjectNames` then `convertUserNames` (output items replacing
`items` in between) equals the opposite order. -/
theorem convert_project_user_commute (s : SyncData) :
    convertUserNames (setItems s (convertProjectNames s)) =
      convertProjectNames (setItems s (convertUserNames s)) := by
  show (s.items.map (resolveProjectItem (projectNamesMap s))).map
      (resolveUserItem (userNamesMap s)) =
    (s.items.map (resolveUserItem (userNamesMap s))).map
      (resolveProjectItem (projectNamesMap s))
  rw [List.map_map, List.map_map]
  apply List.map_congr_left
  intro item _
  cases item
  rfl

/-- C5: for every item the sanitizer returns, a non-empty label array
comes out as the comma-joined labels wrapped in one pair of quotes, and
an empty or absent label array comes out as the explicit null marker,
never an empty-quote string. -/
theorem escapeCommas_labels_spec (item out : Item)
    (h : escapeItem item = some out) :
    (∀ ls, item.labels = JsVal.arr ls → ls ≠ [] →
        out.labels = JsVal.str ("\"" ++ String.intercalate "," ls ++ "\"")) ∧
    ((item.labels = JsVal.arr [] ∨ item.labels = JsVal.undefined) →
        out.labels = JsVal.null) := by
  constructor
  · intro ls hls hne
    have hlen : 0 < ls.length := List.length_pos.mpr hne
    unfold escapeItem at h
    rw [hls] at h
    simp only [escapeLabels, hlen, if_pos] at h
    cases hc : jsToString item.content with
    | none => rw [hc] at h; exact absurd h (by simp)
    | some c =>
      rw [hc] at h
      have := Option.some.inj h
      rw [← this]
  · intro habs
    unfold escapeItem at h
    have hlab : escapeLabels item.labels = some JsVal.null := by
      rcases habs with h1 | h1 <;> rw [h1] <;> simp [escapeLabels]
    rw [hlab] at h
    cases hc : jsToString item.content with
    | none => rw [hc] at h; exact absurd h (by simp)
    | some c =>
      rw [hc] at h
      have := Option.some.inj h
      rw [← this]

/-- C5 witness: the scenario item's labels come out as `"urgent,home"`
wrapped in one pair of quotes. -/
theorem escapeCommas_labels_spec_witness :
    sampleEscaped.labels =
      JsVal.str ("\"" ++ String.intercalate "," ["urgent", "home"] ++ "\"") :=
  (escapeCommas_labels_spec sampleItem sampleEscaped (by decide)).1
    ["urgent", "home"] (by decide) (by decide)

/-- C6: for every item the sanitizer returns, the output content is the
string form of the input content wrapped in exactly one pair of quote
characters (non-string content is stringified first, so the conversion
is defined exactly when the sanitizer returns). -/
theorem escapeCommas_content_quoted (item out : Item)
    (h : escapeItem item = some out) :
    (jsToString item.content).isSome = true ∧
      out.content =
        JsVal.str ("\"" ++ (jsToString item.content).getD "" ++ "\"") := by
  unfold escapeItem at h
  cases h1 : escapeLabels item.labels with
  | none => rw [h1] at h; exact absurd h (by simp)
  | some ls =>
    rw [h1] at h
    cases h2 : jsToString item.content with
    | none => rw [h2] at h; exact absurd h (by simp)
    | some c =>
      rw [h2] at h
      have := Option.some.inj h
      rw [← this]
      exact ⟨rfl, rfl⟩

/-- C6 witness: the scenario item's content comes out as `"buy milk"` in
one pair of quotes. -/
theorem escapeCommas_content_quoted_witness :
    (jsToString sampleItem.content).isSome = true ∧
      sampleEscaped.content =
        JsVal.str ("\"" ++ (jsToString sampleItem.content).getD "" ++ "\"") :=
  escapeCommas_content_quoted sampleItem sampleEscaped (by decide)

/-- C7 counterexample: on a concrete non-premium archived export the error
page carries HTTP status 500 — produced by `renderErrorPage` with no error
object — and 500 is not in the 4xx class, contrary to the claim. The
message and the absence of a completed-task fetch do hold. -/
theorem exportData_premium_status_counterexample :
    exportData (some freeSnap) "json_all" [Except.ok page1, Except.ok page2] =
      ⟨ExportOutcome.errorPage
          "Must be Todoist Premium to export archived items." 500,
        false, "json_all"⟩ ∧
      ¬(400 ≤ 500 ∧ 500 ≤ 499) := by decide

/-- C7 amended: for every archived-format export with a non-premium user,
the export fails with the premium message and HTTP-equivalent status 500
(the shared error surface `renderErrorPage` defaults to 500 when no error
object is attached), and no upstream completed-task fetch is made. -/
theorem exportData_premium_gate (s : SyncData) (format : String)
    (source : List PageResult)
    (hfmt : jsIncludes format FORMAT_SUFFIX_INCLUDE_ARCHIVED = true)
    (hprem : s.user.is_premium = false) :
    exportData (some s) format source =
      ⟨ExportOutcome.errorPage
          "Must be Todoist Premium to export archived items." 500,
        false, format⟩ := by
  simp [exportData, hfmt, hprem, renderErrorPage]

/-- C7 witness: the premium gate fires on a concrete non-premium request
without touching the completed-task source. -/
theorem exportData_premium_gate_witness :
    exportData (some freeSnap) "csv_all" [Except.ok page1] =
      ⟨ExportOutcome.errorPage
          "Must be Todoist Premium to export archived items." 500,
        false, "csv_all"⟩ :=
  exportData_premium_gate freeSnap "csv_all" [Except.ok page1]
    (by decide) (by decide)

/-- C8: an item whose project reference and user-role references are all
dangling is denormalized, without any failure, to the explicit markers:
`undefined` for the project field, `null` for the three user-role fields
(constructor-distinct from every numeric id value `JsVal.num n`), and the
resolved items are members of the transforms' outputs. -/
theorem denormalization_dangling_markers (s : SyncData) (item : Item)
    (hmem : item ∈ s.items)
    (hp : ∀ p ∈ s.projects, toString p.id ≠ toKey item.project_id)
    (ha : ∀ c ∈ s.collaborators, toString c.id ≠ toKey item.assigned_by_uid)
    (hb : ∀ c ∈ s.collaborators, toString c.id ≠ toKey item.added_by_uid)
    (hu : ∀ c ∈ s.collaborators, toString c.id ≠ toKey item.user_id) :
    resolveProjectItem (projectNamesMap s) item ∈ convertProjectNames s ∧
    resolveUserItem (userNamesMap s) item ∈ convertUserNames s ∧
    (resolveProjectItem (projectNamesMap s) item).project_id = JsVal.undefined ∧
    (resolveUserItem (userNamesMap s) item).assigned_by_uid = JsVal.null ∧
    (resolveUserItem (userNamesMap s) item).added_by_uid = JsVal.null ∧
    (resolveUserItem (userNamesMap s) item).user_id = JsVal.null := by
  have hpnone : objGet (projectNamesMap s) (toKey item.project_id) = none := by
    apply objGet_eq_none
    intro e he
    obtain ⟨p, hpp, rfl⟩ := List.mem_map.mp he
    exact hp p hpp
  have hcnone : ∀ (k : String),
      (∀ c ∈ s.collaborators, toString c.id ≠ k) →
      objGet (userNamesMap s) k = none := by
    intro k hk
    apply objGet_eq_none
    intro e he
    obtain ⟨c, hcc, rfl⟩ := List.mem_map.mp he
    exact hk c hcc
  refine ⟨List.mem_map_of_mem _ hmem, List.mem_map_of_mem _ hmem, ?_, ?_, ?_, ?_⟩
  · show jsValOfLookup (objGet (projectNamesMap s) (toKey item.project_id)) =
      JsVal.undefined
    rw [hpnone]
    rfl
  · show jsOrNull (objGet (userNamesMap s) (toKey item.assigned_by_uid)) =
      JsVal.null
    rw [hcnone _ ha]
    rfl
  · show jsOrNull (objGet (userNamesMap s) (toKey item.added_by_uid)) =
      JsVal.null
    rw [hcnone _ hb]
    rfl
  · show jsOrNull (objGet (userNamesMap s) (toKey item.user_id)) = JsVal.null
    rw [hcnone _ hu]
    rfl

/-- C8 witness: the dangling item (ids 99 against project 1, collaborator
7) resolves to the undefined/null markers inside the transform outputs. -/
theorem denormalization_dangling_markers_witness :
    resolveProjectItem (projectNamesMap danglingSnap) danglingItem ∈
        convertProjectNames danglingSnap ∧
      resolveUserItem (userNamesMap danglingSnap) danglingItem ∈
        convertUserNames danglingSnap ∧
      (resolveProjectItem (projectNamesMap danglingSnap)
          danglingItem).project_id = JsVal.undefined ∧
      (resolveUserItem (userNamesMap danglingSnap)
          danglingItem).assigned_by_uid = JsVal.null ∧
      (resolveUserItem (userNamesMap danglingSnap)
          danglingItem).added_by_uid = JsVal.null ∧
      (resolveUserItem (userNamesMap danglingSnap)
          danglingItem).user_id = JsVal.null :=
  denormalization_dangling_markers danglingSnap danglingItem
    (by decide) (by decide) (by decide) (by decide) (by decide)

/-- C9: a `json_all` export for a premium user over a two-page completed
history emits JSON whose `completed.results` is both pages' records
concatenated and whose `items` is the live items with the completed
records appended, with the `_all` suffix stripped so the format in force
at emission is exactly `json`. -/
theorem exportData_json_all_two_pages (s : SyncData) (p1 p2 : Page)
    (hprem : s.user.is_premium = true)
    (hc1 : cursorTruthy p1.next_cursor = true)
    (hc2 : cursorTruthy p2.next_cursor = false) :
    exportData (some s) "json_all" [Except.ok p1, Except.ok p2] =
      ⟨ExportOutcome.jsonFile
          (setItems (setCompleted s (p1.results.getD [] ++ p2.results.getD []))
            (s.items ++ (p1.results.getD [] ++ p2.results.getD []))),
        true, "json"⟩ := by
  have hinc : jsIncludes "json_all" FORMAT_SUFFIX_INCLUDE_ARCHIVED = true := by
    decide
  have hrep : jsReplaceFirst "json_all" FORMAT_SUFFIX_INCLUDE_ARCHIVED =
      "json" := by decide
  have hfetch : fetchCompleted [Except.ok p1, Except.ok p2] =
      p1.results.getD [] ++ p2.results.getD [] := by
    simp [fetchCompleted, hc1, hc2]
  simp [exportData, hinc, hprem, hrep, hfetch, emitFormatted, setItems,
    setCompleted]

/-- C9 witness: the scenario snapshot with two concrete pages emits the
merged JSON payload under format `json`. -/
theorem exportData_json_all_two_pages_witness :
    exportData (some sampleSnap) "json_all" [Except.ok page1, Except.ok page2] =
      ⟨ExportOutcome.jsonFile
          (setItems (setCompleted sampleSnap [recA, recB])
            (sampleSnap.items ++ [recA, recB])),
        true, "json"⟩ :=
  (exportData_json_all_two_pages sampleSnap page1 page2
      (by decide) (by decide) (by decide)).trans (by decide)

/-- C10: the sanitizer is not total: an item whose content is null or
undefined makes `escapeCommas` throw (modelled as `none`) instead of
returning a sanitized list, and a whole CSV export containing such an
item aborts with the propagated exception instead of degrading. -/
theorem escapeCommas_throws_on_missing_content (s : SyncData) (item : Item)
    (hmem : item ∈ s.items)
    (hc : item.content = JsVal.null ∨ item.content = JsVal.undefined) :
    escapeCommas s = none ∧ emitFormatted "csv" s = ExportOutcome.thrown := by
  have hstr : jsToString item.content = none := by
    rcases hc with h | h <;> rw [h] <;> rfl
  have hitem : escapeItem item = none := by
    unfold escapeItem
    rw [hstr]
    cases escapeLabels item.labels <;> rfl
  have h1 : escapeCommas s = none := escapeItems_none_of_mem hmem hitem
  refine ⟨h1, ?_⟩
  have hmem2 : resolveUserItem (userNamesMap (setItems s (convertProjectNames s)))
      (resolveProjectItem (projectNamesMap s) item) ∈
      convertUserNames (setItems s (convertProjectNames s)) :=
    List.mem_map_of_mem _ (List.mem_map_of_mem _ hmem)
  have hitem2 : escapeItem
      (resolveUserItem (userNamesMap (setItems s (convertProjectNames s)))
        (resolveProjectItem (projectNamesMap s) item)) = none := by
    unfold escapeItem
    have hpres : (resolveUserItem
        (userNamesMap (setItems s (convertProjectNames s)))
        (resolveProjectItem (projectNamesMap s) item)).content =
        item.content := rfl
    rw [hpres, hstr]
    cases escapeLabels (resolveUserItem
      (userNamesMap (setItems s (convertProjectNames s)))
      (resolveProjectItem (projectNamesMap s) item)).labels <;> rfl
  have h2 : escapeCommas (setItems (setItems s (convertProjectNames s))
      (convertUserNames (setItems s (convertProjectNames s)))) = none :=
    escapeItems_none_of_mem hmem2 hitem2
  show (if ("csv" : String) = "json" then
      ExportOutcome.jsonFile s
    else if ("csv" : String) = "csv" then
      match escapeCommas (setItems (setItems s (convertProjectNames s))
        (convertUserNames (setItems s (convertProjectNames s)))) with
      | some items => ExportOutcome.csvFile items
      | none => ExportOutcome.thrown
    else ExportOutcome.noResponse) = ExportOutcome.thrown
  rw [if_neg (by decide), if_pos rfl, h2]

/-- C10 witness: a snapshot holding one null-content item makes the
sanitizer and the whole CSV emission abort. -/
theorem escapeCommas_throws_on_missing_content_witness :
    escapeCommas nullContentSnap = none ∧
      emitFormatted "csv" nullContentSnap = ExportOutcome.thrown :=
  escapeCommas_throws_on_missing_content nullContentSnap nullContentItem
    (by decide) (by decide)

end TodoistExport
